import Mathlib

/-!
Verification of the signals-poc repository against its natural-language
specification.  The TypeScript routes under signals-fe/src/app/api and the
SQL migrations are shallowly embedded as executable Lean definitions; the
theorems at the end of the file settle the frozen claims C1 to C10.

Conventions: JavaScript strings are modelled as Lean String (all inputs in
the claims are ASCII, where the two agree); timestamps are epoch
milliseconds as Int; database tables are lists of row structures; a
fallible database write is driven by an outcome oracle (Nat to Bool),
mirroring the supabase-js convention that a data-layer error is returned
inside the result object rather than thrown.
-/

namespace Signals

/-! ## JavaScript string primitives

Executable models of the handful of ECMAScript string operations the
routes use: includes, toLowerCase, trim, substring, split, padStart. -/

/-- Model of checking that the pattern list is an initial segment of the
second list (used to model String.prototype.includes). -/
def takesLead : List Char → List Char → Bool
  | [], _ => true
  | _ :: _, [] => false
  | p :: ps, c :: cs => p == c && takesLead ps cs

/-- Occurrence of a pattern anywhere in a character list. -/
def findSub (ps : List Char) : List Char → Bool
  | [] => takesLead ps []
  | c :: cs => takesLead ps (c :: cs) || findSub ps cs

/-- Model of JavaScript s.includes(pat). -/
def jsIncludes (s pat : String) : Bool := findSub pat.data s.data

/-- Model of JavaScript s.toLowerCase() (ASCII range, via Char.toLower). -/
def lowerStr (s : String) : String := ⟨s.data.map Char.toLower⟩

/-- Model of JavaScript s.trim(). -/
def trimStr (s : String) : String :=
  ⟨((s.data.dropWhile Char.isWhitespace).reverse.dropWhile Char.isWhitespace).reverse⟩

/-- Model of JavaScript s.substring(0, n). -/
def strTake (s : String) (n : Nat) : String := ⟨s.data.take n⟩

/-- String length as the length of the character list (our inputs are
ASCII, where this agrees with the JavaScript UTF-16 length). -/
def strLen (s : String) : Nat := s.data.length

/-- Split a character list at every occurrence of the delimiter
(JavaScript split with a single-character separator). -/
def splitCharAux (d : Char) : List Char → List Char → List (List Char)
  | [], acc => [acc.reverse]
  | c :: cs, acc =>
    if c == d then acc.reverse :: splitCharAux d cs []
    else splitCharAux d cs (c :: acc)

/-- Model of JavaScript s.split(d) for a one-character separator d. -/
def splitChar (d : Char) (s : String) : List String :=
  (splitCharAux d s.data []).map (fun cs => ⟨cs⟩)

/-- Collapse each maximal run of characters satisfying p to a single
occurrence (keeping the last character of the run). -/
def collapseRuns (p : Char → Bool) : List Char → List Char
  | [] => []
  | [c] => [c]
  | c :: d :: rest =>
    if p c && p d then collapseRuns p (d :: rest)
    else c :: collapseRuns p (d :: rest)

/-- Split a character list at every character satisfying p. -/
def splitAnyAux (p : Char → Bool) : List Char → List Char → List (List Char)
  | [], acc => [acc.reverse]
  | c :: cs, acc =>
    if p c then acc.reverse :: splitAnyAux p cs []
    else splitAnyAux p cs (c :: acc)

/-- Model of JavaScript s.split(regex) for a one-character-class regex
with a + quantifier (such as the sentence split on [.!?]+): a maximal
run of class characters is a single separator. -/
def splitRuns (p : Char → Bool) (s : String) : List String :=
  (splitAnyAux p (collapseRuns p s.data) []).map (fun cs => ⟨cs⟩)

/-- Model of JavaScript s.padStart(2, zero-digit). -/
def padStart2 (s : String) : String :=
  if strLen s < 2 then ⟨'0' :: s.data⟩ else s

/-- JavaScript truthiness of an optional string field (undefined and the
empty string are falsy). -/
def optTruthy : Option String → Bool
  | none => false
  | some s => s != ""

/-- Model of the JavaScript idiom (v || dflt) on an optional string:
undefined and the empty string fall back to the default. -/
def jsOrStr (v : Option String) (dflt : String) : String :=
  match v with
  | none => dflt
  | some s => if s == "" then dflt else s

/-! ## Calendar / Date model

Epoch-millisecond timestamps.  jsDateMs models the UTC subset of the
ECMA-262 date time string format (YYYY-MM-DD and
YYYY-MM-DDTHH:MM:SS(.mmm)Z), which covers every string the batch-ingest
route constructs and feeds to new Date; any other string is treated as
unparseable (Option.none, the NaN case). -/

/-- Gregorian leap-year test. -/
def isLeap (y : Int) : Bool := (y % 4 == 0 && y % 100 != 0) || y % 400 == 0

/-- Number of days in a month of a given year. -/
def daysInMonth (y : Int) (m : Nat) : Nat :=
  if m == 2 then (if isLeap y then 29 else 28)
  else if m == 4 || m == 6 || m == 9 || m == 11 then 30
  else 31

/-- Days from 1970-01-01 to the given civil date (standard era-based
civil-from-days inversion; exact for the proleptic Gregorian calendar). -/
def daysFromCivil (y : Int) (m d : Nat) : Int :=
  let y2 : Int := if m ≤ 2 then y - 1 else y
  let era : Int := (if 0 ≤ y2 then y2 else y2 - 399) / 400
  let yoe : Int := y2 - era * 400
  let doy : Int := (153 * ((m : Int) + (if 2 < m then -3 else 9)) + 2) / 5 + (d : Int) - 1
  let doe : Int := yoe * 365 + yoe / 4 - yoe / 100 + doy
  era * 146097 + doe - 719468

/-- Parse exactly n decimal digits from the front of a character list. -/
def parseNDigits : Nat → Nat → List Char → Option (Nat × List Char)
  | 0, acc, cs => some (acc, cs)
  | _ + 1, _, [] => none
  | n + 1, acc, c :: cs =>
    if c.isDigit then parseNDigits n (acc * 10 + (c.toNat - 48)) cs else none

/-- Consume one expected character from the front of a character list. -/
def expectChar (d : Char) : List Char → Option (List Char)
  | [] => none
  | c :: cs => if c == d then some cs else none

/-- Parse the optional fractional-seconds part .mmm. -/
def parseFraction : List Char → Option (Nat × List Char)
  | '.' :: rest => parseNDigits 3 0 rest
  | cs => some (0, cs)

/-- Parse the time-of-day part HH:MM:SS(.mmm)Z, returning milliseconds
into the day.  Components are range-checked, as new Date does for the
ISO format. -/
def parseTimePart (cs : List Char) : Option Nat := do
  let (h, cs) ← parseNDigits 2 0 cs
  let cs ← expectChar ':' cs
  let (mi, cs) ← parseNDigits 2 0 cs
  let cs ← expectChar ':' cs
  let (se, cs) ← parseNDigits 2 0 cs
  let (ms, cs) ← parseFraction cs
  match cs with
  | ['Z'] => if h ≤ 23 && mi ≤ 59 && se ≤ 59 then some ((h * 3600 + mi * 60 + se) * 1000 + ms) else none
  | _ => none

/-- Model of new Date(s).getTime() for the UTC ECMA-262 date time string
format; none models a NaN result (invalid date). -/
def jsDateMs (s : String) : Option Int := do
  let cs := s.data
  let (y, cs) ← parseNDigits 4 0 cs
  let cs ← expectChar '-' cs
  let (mo, cs) ← parseNDigits 2 0 cs
  let cs ← expectChar '-' cs
  let (d, cs) ← parseNDigits 2 0 cs
  if 1 ≤ mo && mo ≤ 12 && 1 ≤ d && d ≤ daysInMonth (y : Int) mo then
    match cs with
    | [] => some (86400000 * daysFromCivil (y : Int) mo d)
    | 'T' :: rest => do
      let t ← parseTimePart rest
      some (86400000 * daysFromCivil (y : Int) mo d + (t : Int))
    | _ => none
  else none

/-- All characters of the string are decimal digits. -/
def allDigits (s : String) : Bool := s.data.all Char.isDigit

/-- Model of the test against the date-only regex (four digits, dash, two
digits, dash, two digits). -/
def matchDateOnly (s : String) : Bool :=
  match splitChar '-' s with
  | [a, b, c] =>
    strLen a == 4 && strLen b == 2 && strLen c == 2 &&
      allDigits a && allDigits b && allDigits c
  | _ => false

/-- Model of the test against the slash-date regex (one or two digits,
slash, one or two digits, slash, four digits). -/
def matchSlashDate (s : String) : Bool :=
  match splitChar '/' s with
  | [a, b, c] =>
    (strLen a == 1 || strLen a == 2) && (strLen b == 1 || strLen b == 2) &&
      strLen c == 4 && allDigits a && allDigits b && allDigits c
  | _ => false

/-! ## CSV batch-ingest date parsing

Embedding of the per-value date handling in
signals-fe/src/app/api/ingest/batch/route.ts (lines 59-103): the
content-looking guard, then the ISO / date-only / US / UK / generic
branch chain (the UK branch is reproduced exactly as in the source, with
the same guard as the US branch), then NaN validation with fallback to
the current time.  The result pairs the chosen timestamp with a flag
recording whether a fallback warning was logged. -/

def parseStartedAt (dateValue : String) (nowMs : Int) : Int × Bool :=
  if decide (50 < strLen dateValue) || jsIncludes dateValue "<" || jsIncludes dateValue ">" then
    (nowMs, true)
  else
    let parsed : Option Int :=
      if jsIncludes dateValue "T" || jsIncludes dateValue "Z" then
        jsDateMs dateValue
      else if matchDateOnly dateValue then
        jsDateMs (dateValue ++ "T00:00:00Z")
      else if matchSlashDate dateValue then
        match splitChar '/' dateValue with
        | [month, day, year] =>
          jsDateMs (year ++ "-" ++ padStart2 month ++ "-" ++ padStart2 day ++ "T00:00:00Z")
        | _ => none
      else if matchSlashDate dateValue then
        match splitChar '/' dateValue with
        | [day, month, year] =>
          jsDateMs (year ++ "-" ++ padStart2 month ++ "-" ++ padStart2 day ++ "T00:00:00Z")
        | _ => none
      else
        jsDateMs dateValue
    match parsed with
    | some t => (t, false)
    | none => (nowMs, true)

/-- The enclosing guard on the optional date cell: parsing is attempted
only when the cell is present and non-empty, otherwise the session start
time silently stays at the current time. -/
def sessionStartedAt (dateCell : Option String) (nowMs : Int) : Int × Bool :=
  match dateCell with
  | none => (nowMs, false)
  | some v => if strLen v == 0 then (nowMs, false) else parseStartedAt v nowMs

/-! ## Single-session ingestion fallback

Embedding of the fallback path of signals-fe/src/app/api/ingest/route.ts
(catch branch, lines 281-394): naive sentence-window chunking and
keyword-based candidate synthesis.  The constant session id is omitted
from the row models (it is the same for every prepared row). -/

/-- A chunk row prepared for insertion by the fallback path. -/
structure FallbackChunk where
  text : String
  start_sec : Nat
  end_sec : Option Nat
deriving DecidableEq, Repr

/-- A topic-candidate row prepared for insertion by the fallback path
(topic_id_suggested is always null on this path). -/
structure FallbackCandidate where
  label : String
  evidence : String
  why_new : String
  status : String
deriving DecidableEq, Repr

/-- Sentence-ending character class of the fallback split. -/
def isPunctChar (c : Char) : Bool := c == '.' || c == '!' || c == '?'

/-- raw.split on sentence punctuation, keeping segments whose trimmed
length exceeds 10. -/
def sentencesOf (raw : String) : List String :=
  (splitRuns isPunctChar raw).filter (fun s => decide (10 < strLen (trimStr s)))

/-- Join a list of strings with a dot-space separator (the join of a
two-sentence window). -/
def joinDotSpace : List String → String
  | [] => ""
  | [s] => s
  | s :: rest => s ++ ". " ++ joinDotSpace rest

/-- The chunk-window loop: step through the sentence list two at a time,
keeping joined windows whose trimmed text is longer than 20 characters,
with approximate timings derived from the running index. -/
def windowChunks : List String → Nat → List FallbackChunk
  | [], _ => []
  | [s], i =>
    let chunkText := trimStr (joinDotSpace [s])
    if 20 < strLen chunkText then [⟨chunkText, i * 10, some ((i + 2) * 10)⟩] else []
  | s :: t :: rest, i =>
    let chunkText := trimStr (joinDotSpace [s, t])
    let tail := windowChunks rest (i + 2)
    if 20 < strLen chunkText then
      ⟨chunkText, i * 10, some ((i + 2) * 10)⟩ :: tail
    else tail

/-- The chunk rows the fallback path prepares: the sentence windows, or a
single chunk holding the first 2000 characters of the raw text when the
windowing produced nothing. -/
def fallbackChunks (raw : String) : List FallbackChunk :=
  let basicChunks := windowChunks (sentencesOf raw) 0
  if basicChunks.isEmpty then
    [⟨strTake raw 2000, 0, none⟩]
  else basicChunks

/-- The candidate rows the fallback path prepares: one labelled candidate
per matched keyword group, in source order, or the single generic
candidate when no group matched. -/
def basicCandidates (raw : String) : List FallbackCandidate :=
  let text := lowerStr raw
  let productGroup : List FallbackCandidate :=
    if jsIncludes text "product" || jsIncludes text "development" || jsIncludes text "feature" then
      [⟨"Product Development", strTake raw 150, "Contains product development discussion", "pending"⟩]
    else []
  let userGroup : List FallbackCandidate :=
    if jsIncludes text "user" || jsIncludes text "feedback" || jsIncludes text "customer" then
      [⟨"User Feedback", strTake raw 150, "Contains user feedback discussion", "pending"⟩]
    else []
  let planGroup : List FallbackCandidate :=
    if jsIncludes text "timeline" || jsIncludes text "priority" || jsIncludes text "plan" then
      [⟨"Planning & Timeline", strTake raw 150, "Contains planning and timeline discussion", "pending"⟩]
    else []
  let cands := productGroup ++ userGroup ++ planGroup
  if cands.isEmpty then
    [⟨"General Discussion", strTake raw 100, "Basic topic detection (pipeline failed)", "pending"⟩]
  else cands

/-! ## Environment-configuration probe

Embedding of signals-fe/src/app/api/env/route.ts.  Environment variables
are optional strings; the route returns the public url value as-is and
only the JavaScript truthiness of the two keys. -/

/-- The process environment variables the probe reads. -/
structure EnvState where
  supabaseUrl : Option String
  publishableKey : Option String
  secretKey : Option String

/-- The JSON body the probe returns. -/
structure EnvResponse where
  url : Option String
  anon : Bool
  service : Bool
deriving DecidableEq, Repr

/-- The GET handler of the probe. -/
def envGET (e : EnvState) : EnvResponse :=
  { url := e.supabaseUrl
    anon := optTruthy e.publishableKey
    service := optTruthy e.secretKey }

/-! ## Taxonomy graph assembly

Embedding of the load function of
signals-fe/src/app/(dashboard)/taxonomy/page.tsx: read topics (ordered
by label), aliases and relations, and build per-topic alias, child and
parent lists by filtering in memory. -/

/-- A row of the topics table as the page reads it. -/
structure TaxTopicRow where
  id : String
  label : String
  description : Option String
deriving DecidableEq, Repr

/-- A row of the topic_aliases table as the page reads it. -/
structure TaxAliasRow where
  topic_id : String
  aliasText : String
deriving DecidableEq, Repr

/-- A row of the topic_relations table as the page reads it. -/
structure TaxRelRow where
  parent_id : String
  child_id : String
deriving DecidableEq, Repr

/-- The three underlying tables. -/
structure TaxDB where
  topics : List TaxTopicRow
  topic_aliases : List TaxAliasRow
  topic_relations : List TaxRelRow
deriving DecidableEq, Repr

/-- The assembled per-topic view. -/
structure TopicView where
  id : String
  label : String
  description : Option String
  aliases : List String
  children : List String
  parents : List String
deriving DecidableEq, Repr

/-- Insert a topic row into a label-sorted list (the order-by-label of
the topics query). -/
def insertByLabel (t : TaxTopicRow) : List TaxTopicRow → List TaxTopicRow
  | [] => [t]
  | x :: xs =>
    if compare t.label x.label != Ordering.gt then t :: x :: xs
    else x :: insertByLabel t xs

/-- Stable label sort of the topics query result. -/
def sortByLabel (l : List TaxTopicRow) : List TaxTopicRow :=
  l.foldr insertByLabel []

/-- Assemble the view of one topic by filtering the alias and relation sets. -/
def assembleTopic (aliasesData : List TaxAliasRow) (relationsData : List TaxRelRow)
    (topic : TaxTopicRow) : TopicView :=
  { id := topic.id
    label := topic.label
    description := topic.description
    aliases := (aliasesData.filter (fun a => a.topic_id == topic.id)).map (fun a => a.aliasText)
    children := (relationsData.filter (fun r => r.parent_id == topic.id)).map (fun r => r.child_id)
    parents := (relationsData.filter (fun r => r.child_id == topic.id)).map (fun r => r.parent_id) }

/-- The load function as a state transformer: it returns the (untouched)
database together with the assembled topic list. -/
def loadTaxonomy (db : TaxDB) : TaxDB × List TopicView :=
  let topicsData := sortByLabel db.topics
  let views := topicsData.map (assembleTopic db.topic_aliases db.topic_relations)
  (db, views)

/-! ## Database uniqueness constraints

Embedding of the constraints of supabase/migrations/0001_init.sql and of
the 0002 quick-wins migration (src/unnamed/part_003): topics have a
primary key on id and a unique index uq_topics_label on lower(label);
topic_aliases have a global unique constraint on alias and a unique
index uq_topic_aliases on (topic_id, lower(alias)).  An insert or upsert
that would violate a constraint is rejected by the database: the
operation returns none and the table is unchanged. -/

/-- A row of the topics table (constraint-relevant columns). -/
structure TopicRow where
  id : String
  label : String
  created_by : Option String
deriving DecidableEq, Repr

/-- A row of the topic_aliases table (constraint-relevant columns). -/
structure AliasRow where
  topic_id : String
  aliasText : String
deriving DecidableEq, Repr

/-- The topics table satisfies its primary key and the case-insensitive
label uniqueness index uq_topics_label. -/
def topicsUnique (rows : List TopicRow) : Prop :=
  rows.Pairwise (fun x y => x.id ≠ y.id ∧ lowerStr x.label ≠ lowerStr y.label)

instance : DecidablePred topicsUnique := fun rows =>
  List.instDecidablePairwise rows

/-- The topic_aliases table satisfies its exact-alias unique constraint
and the case-insensitive per-topic uniqueness index uq_topic_aliases. -/
def aliasesUnique (rows : List AliasRow) : Prop :=
  rows.Pairwise (fun x y =>
    x.aliasText ≠ y.aliasText ∧ ¬(x.topic_id = y.topic_id ∧ lowerStr x.aliasText = lowerStr y.aliasText))

instance : DecidablePred aliasesUnique := fun rows =>
  List.instDecidablePairwise rows

/-- Plain insert into topics: rejected when the id or the lowercased
label collides with an existing row. -/
def insertTopicSQL (rows : List TopicRow) (r : TopicRow) : Option (List TopicRow) :=
  if rows.any (fun x => x.id == r.id) ||
      rows.any (fun x => lowerStr x.label == lowerStr r.label) then none
  else some (rows ++ [r])

/-- The in-place update of the row with the conflicting id. -/
def updateTopicsById (rows : List TopicRow) (r : TopicRow) : List TopicRow :=
  rows.map (fun x =>
    if x.id == r.id then { x with label := r.label, created_by := r.created_by } else x)

/-- Upsert into topics as the commit route issues it (conflict target:
the primary key id): an existing id is updated in place, a fresh id is
inserted; either way the result must still satisfy the unique label
index or the write is rejected. -/
def upsertTopicSQL (rows : List TopicRow) (r : TopicRow) : Option (List TopicRow) :=
  if rows.any (fun x => x.id == r.id) then
    if topicsUnique (updateTopicsById rows r) then some (updateTopicsById rows r) else none
  else insertTopicSQL rows r

/-- Plain insert into topic_aliases: rejected when the exact alias exists
anywhere or the (topic_id, lowercased alias) pair exists. -/
def insertAliasSQL (rows : List AliasRow) (r : AliasRow) : Option (List AliasRow) :=
  if rows.any (fun x => x.aliasText == r.aliasText) ||
      rows.any (fun x => x.topic_id == r.topic_id && lowerStr x.aliasText == lowerStr r.aliasText) then none
  else some (rows ++ [r])

/-! ## Candidate-approval commit route

Embedding of signals-fe/src/app/api/approvals/commit/route.ts.  Each
database write consumes one outcome from a write oracle (Nat to Bool);
a false outcome models a data-layer write failure. Per supabase-js
semantics, such a failure is returned inside the result object, never
thrown; the route discards every write result in the decision loop, so
a failed write leaves the table unchanged and processing continues.
Only a thrown exception (modelled here as a request body that fails to
parse) reaches the catch block and produces the generic 500 response. -/

/-- One decision in the request body. -/
structure Decision where
  id : String
  status : String
  action : Option String
  targetCoreId : Option String
  sessionId : Option String
deriving DecidableEq, Repr

/-- A row of topic_candidates (the columns the route touches). -/
structure CandidateRow where
  candidate_id : String
  label : String
  topic_id_suggested : Option String
  status : String
  decided_at : Option String
  approver_id : Option String
deriving DecidableEq, Repr

/-- A row of topic_relations as the route upserts it. -/
structure RelationRow where
  parent_id : String
  child_id : String
  relation_type : String
  rollup_weight : Rat
deriving DecidableEq, Repr

/-- The payload_json shapes the route writes. -/
inductive EventPayload where
  | statusChange (toStatus : String) (action : Option String) (targetCoreId : Option String)
  | taxonomyApplied (count : Nat)
  | autoTriggered
deriving DecidableEq, Repr

/-- A row of the events audit table as the route inserts it. -/
structure EventRow where
  actor : String
  event_type : String
  candidate_id : Option String
  session_id : Option String
  payload : EventPayload
deriving DecidableEq, Repr

/-- The database state the commit route touches; auto_chunk_tag is the
scoring_config flag read at the start of the request. -/
structure CommitDB where
  topic_candidates : List CandidateRow
  topic_aliases : List AliasRow
  topic_relations : List RelationRow
  topics : List TopicRow
  events : List EventRow
  auto_chunk_tag : Bool
deriving DecidableEq, Repr

/-- The candidate-details read (select label, topic_id_suggested with a
single-row filter on candidate_id). -/
def findCand (db : CommitDB) (id : String) : Option CandidateRow :=
  db.topic_candidates.find? (fun r => r.candidate_id == id)

/-- Upsert into topic_aliases as issued by the route (the generated
alias_id primary key never conflicts, so it behaves as an append). -/
def upsertAliasOp (db : CommitDB) (r : AliasRow) : CommitDB :=
  { db with topic_aliases := db.topic_aliases ++ [r] }

/-- Upsert into topic_relations on the (parent, child, type) primary
key: replace the matching row or append. -/
def upsertRelationOp (db : CommitDB) (r : RelationRow) : CommitDB :=
  if db.topic_relations.any (fun x =>
      x.parent_id == r.parent_id && x.child_id == r.child_id && x.relation_type == r.relation_type) then
    { db with topic_relations := db.topic_relations.map (fun x =>
        if x.parent_id == r.parent_id && x.child_id == r.child_id && x.relation_type == r.relation_type
        then r else x) }
  else { db with topic_relations := db.topic_relations ++ [r] }

/-- Upsert into topics on the id primary key: replace the matching row
or append. -/
def upsertTopicOp (db : CommitDB) (r : TopicRow) : CommitDB :=
  if db.topics.any (fun x => x.id == r.id) then
    { db with topics := db.topics.map (fun x => if x.id == r.id then r else x) }
  else { db with topics := db.topics ++ [r] }

/-- Insert into the events audit table. -/
def insertEventOp (db : CommitDB) (e : EventRow) : CommitDB :=
  { db with events := db.events ++ [e] }

/-- Run one fallible write: consume the next oracle outcome; apply the
write on success, leave the database unchanged on failure (the route
discards the returned error either way). -/
def attemptWrite (om : Nat → Bool) (st : CommitDB × Nat) (apply : CommitDB → CommitDB) :
    CommitDB × Nat :=
  if om st.2 then (apply st.1, st.2 + 1) else (st.1, st.2 + 1)

/-- The candidate_status_changed audit event of one decision. -/
def decisionEvent (d : Decision) : EventRow :=
  { actor := "ui"
    event_type := "candidate_status_changed"
    candidate_id := some d.id
    session_id := d.sessionId
    payload := .statusChange d.status d.action d.targetCoreId }

/-- The candidate-status update write of one decision. -/
def updateCandidateOp (d : Decision) (nowIso : String) (db : CommitDB) : CommitDB :=
  { db with topic_candidates := db.topic_candidates.map (fun r =>
      if r.candidate_id == d.id then
        { r with status := d.status, decided_at := some nowIso, approver_id := some "ui" }
      else r) }

/-- The alias row the route upserts for an approved alias decision. -/
def aliasRowFor (d : Decision) (cand : Option CandidateRow) : AliasRow :=
  { topic_id := d.targetCoreId.getD ""
    aliasText := jsOrStr (cand.map (fun c => c.label)) "unknown" }

/-- The relation row the route upserts for an approved subtopic
decision. -/
def relationRowFor (d : Decision) (cand : Option CandidateRow) : RelationRow :=
  { parent_id := d.targetCoreId.getD ""
    child_id := jsOrStr (cand.bind (fun c => c.topic_id_suggested)) "unknown"
    relation_type := "parent_child"
    rollup_weight := 1 }

/-- The new canonical topic row the route upserts for an approved
decision with no merge action. -/
def topicRowFor (cand : Option CandidateRow) : TopicRow :=
  { id := jsOrStr (cand.bind (fun c => c.topic_id_suggested)) "unknown"
    label := jsOrStr (cand.map (fun c => c.label)) "unknown"
    created_by := some "ui" }

/-- The body of the decision loop for one decision: update the candidate
row, perform the approval write if the status is approved, then log the
decision event. -/
def processDecision (om : Nat → Bool) (nowIso : String) (st : CommitDB × Nat) (d : Decision) :
    CommitDB × Nat :=
  let st1 := attemptWrite om st (updateCandidateOp d nowIso)
  let st2 :=
    if d.status == "approved" then
      let cand := findCand st1.1 d.id
      if d.action == some "alias" && optTruthy d.targetCoreId then
        attemptWrite om st1 (fun db => upsertAliasOp db (aliasRowFor d cand))
      else if d.action == some "subtopic" && optTruthy d.targetCoreId then
        attemptWrite om st1 (fun db => upsertRelationOp db (relationRowFor d cand))
      else
        attemptWrite om st1 (fun db => upsertTopicOp db (topicRowFor cand))
    else st1
  attemptWrite om st2 (fun db => insertEventOp db (decisionEvent d))

/-- The taxonomy_applied summary event of a non-empty batch. -/
def taxonomyAppliedEvent (decisions : List Decision) : EventRow :=
  { actor := "ui"
    event_type := "taxonomy_applied"
    candidate_id := none
    session_id := (decisions.head?).bind (fun d => d.sessionId)
    payload := .taxonomyApplied decisions.length }

/-- The chunk_tag_requested event written when the auto flag is set. -/
def chunkTagEvent (decisions : List Decision) : EventRow :=
  { actor := "ui"
    event_type := "chunk_tag_requested"
    candidate_id := none
    session_id := (decisions.head?).bind (fun d => d.sessionId)
    payload := .autoTriggered }

/-- The whole POST body after a successfully parsed request: the decision
loop, the batch summary event, and the optional auto-trigger event. -/
def commitPOST (decisions : List Decision) (db0 : CommitDB) (om : Nat → Bool) (nowIso : String) :
    CommitDB × Nat :=
  let auto := db0.auto_chunk_tag
  let st := decisions.foldl (processDecision om nowIso) (db0, 0)
  let st :=
    if 0 < decisions.length then attemptWrite om st (fun db => insertEventOp db (taxonomyAppliedEvent decisions))
    else st
  if auto && 0 < decisions.length then
    attemptWrite om st (fun db => insertEventOp db (chunkTagEvent decisions))
  else st

/-- The HTTP outcome of the route. -/
inductive CommitResponse where
  | success
  | failure500
deriving DecidableEq, Repr

/-- The route handler: a body that fails to parse throws and is caught,
yielding the generic 500; otherwise the batch is processed and the
response is success (write failures are returned in result objects the
route discards, so they never reach the catch block). -/
def commitRoute (body : Option (List Decision)) (db0 : CommitDB) (om : Nat → Bool)
    (nowIso : String) : CommitDB × CommitResponse :=
  match body with
  | none => (db0, .failure500)
  | some decisions => ((commitPOST decisions db0 om nowIso).1, .success)

/-- Number of write attempts the route issues for a batch: one status
update and one audit insert per decision, one extra write per approved
decision, the batch summary insert, and the auto-trigger insert. -/
def writeAttemptCount (decisions : List Decision) (auto : Bool) : Nat :=
  (decisions.map (fun d => if d.status == "approved" then 3 else 2)).sum +
    (if 0 < decisions.length then 1 else 0) +
    (if auto && 0 < decisions.length then 1 else 0)

/-! ## Helper lemmas -/

theorem ifEmpty_singleton_ne_nil {α : Type} (l : List α) (x : α) :
    (if l.isEmpty then [x] else l) ≠ [] := by
  cases l <;> simp

@[simp] theorem updateCandidateOp_events (d : Decision) (now : String) (db : CommitDB) :
    (updateCandidateOp d now db).events = db.events := rfl

@[simp] theorem updateCandidateOp_aliases (d : Decision) (now : String) (db : CommitDB) :
    (updateCandidateOp d now db).topic_aliases = db.topic_aliases := rfl

@[simp] theorem updateCandidateOp_relations (d : Decision) (now : String) (db : CommitDB) :
    (updateCandidateOp d now db).topic_relations = db.topic_relations := rfl

@[simp] theorem updateCandidateOp_topics (d : Decision) (now : String) (db : CommitDB) :
    (updateCandidateOp d now db).topics = db.topics := rfl

@[simp] theorem upsertAliasOp_events (db : CommitDB) (r : AliasRow) :
    (upsertAliasOp db r).events = db.events := rfl

@[simp] theorem upsertAliasOp_aliases (db : CommitDB) (r : AliasRow) :
    (upsertAliasOp db r).topic_aliases = db.topic_aliases ++ [r] := rfl

@[simp] theorem upsertAliasOp_relations (db : CommitDB) (r : AliasRow) :
    (upsertAliasOp db r).topic_relations = db.topic_relations := rfl

@[simp] theorem upsertAliasOp_topics (db : CommitDB) (r : AliasRow) :
    (upsertAliasOp db r).topics = db.topics := rfl

@[simp] theorem upsertRelationOp_events (db : CommitDB) (r : RelationRow) :
    (upsertRelationOp db r).events = db.events := by
  unfold upsertRelationOp
  split <;> rfl

@[simp] theorem upsertRelationOp_aliases (db : CommitDB) (r : RelationRow) :
    (upsertRelationOp db r).topic_aliases = db.topic_aliases := by
  unfold upsertRelationOp
  split <;> rfl

@[simp] theorem upsertRelationOp_topics (db : CommitDB) (r : RelationRow) :
    (upsertRelationOp db r).topics = db.topics := by
  unfold upsertRelationOp
  split <;> rfl

@[simp] theorem upsertTopicOp_events (db : CommitDB) (r : TopicRow) :
    (upsertTopicOp db r).events = db.events := by
  unfold upsertTopicOp
  split <;> rfl

@[simp] theorem upsertTopicOp_aliases (db : CommitDB) (r : TopicRow) :
    (upsertTopicOp db r).topic_aliases = db.topic_aliases := by
  unfold upsertTopicOp
  split <;> rfl

@[simp] theorem upsertTopicOp_relations (db : CommitDB) (r : TopicRow) :
    (upsertTopicOp db r).topic_relations = db.topic_relations := by
  unfold upsertTopicOp
  split <;> rfl

@[simp] theorem insertEventOp_events (db : CommitDB) (e : EventRow) :
    (insertEventOp db e).events = db.events ++ [e] := rfl

@[simp] theorem insertEventOp_aliases (db : CommitDB) (e : EventRow) :
    (insertEventOp db e).topic_aliases = db.topic_aliases := rfl

@[simp] theorem insertEventOp_relations (db : CommitDB) (e : EventRow) :
    (insertEventOp db e).topic_relations = db.topic_relations := rfl

@[simp] theorem insertEventOp_topics (db : CommitDB) (e : EventRow) :
    (insertEventOp db e).topics = db.topics := rfl

theorem attemptWrite_idx (om : Nat → Bool) (st : CommitDB × Nat) (f : CommitDB → CommitDB) :
    (attemptWrite om st f).2 = st.2 + 1 := by
  unfold attemptWrite
  split <;> rfl

theorem attemptWrite_allOk (st : CommitDB × Nat) (f : CommitDB → CommitDB) :
    attemptWrite (fun _ => true) st f = (f st.1, st.2 + 1) := rfl

/-- The audit log only grows: one extended state has the events of the
other as an initial segment. -/
def eventsExtend (db db2 : CommitDB) : Prop := ∃ t, db2.events = db.events ++ t

theorem eventsExtend_refl (db : CommitDB) : eventsExtend db db := ⟨[], by simp⟩

theorem eventsExtend_trans {db1 db2 db3 : CommitDB}
    (h1 : eventsExtend db1 db2) (h2 : eventsExtend db2 db3) : eventsExtend db1 db3 := by
  obtain ⟨t1, e1⟩ := h1
  obtain ⟨t2, e2⟩ := h2
  exact ⟨t1 ++ t2, by rw [e2, e1, List.append_assoc]⟩

theorem attemptWrite_extend (om : Nat → Bool) (st : CommitDB × Nat) (f : CommitDB → CommitDB)
    (h : ∀ db, eventsExtend db (f db)) : eventsExtend st.1 (attemptWrite om st f).1 := by
  unfold attemptWrite
  split
  · exact h st.1
  · exact eventsExtend_refl st.1

theorem eventsExtend_step (om : Nat → Bool) {db0 : CommitDB} {st : CommitDB × Nat}
    (f : CommitDB → CommitDB) (hf : ∀ db, eventsExtend db (f db))
    (h : eventsExtend db0 st.1) :
    eventsExtend db0 (attemptWrite om st f).1 :=
  eventsExtend_trans h (attemptWrite_extend om st f hf)

theorem processDecision_extend (om : Nat → Bool) (now : String) (st : CommitDB × Nat)
    (d : Decision) : eventsExtend st.1 (processDecision om now st d).1 := by
  have hbase : eventsExtend st.1 (attemptWrite om st (updateCandidateOp d now)).1 :=
    eventsExtend_step om (updateCandidateOp d now) (fun db => ⟨[], by simp⟩)
      (eventsExtend_refl st.1)
  unfold processDecision
  apply eventsExtend_step om _ (fun db => ⟨[decisionEvent d], by simp⟩)
  split
  · split
    · exact eventsExtend_step om _ (fun db => ⟨[], by simp⟩) hbase
    · split
      · exact eventsExtend_step om _ (fun db => ⟨[], by simp⟩) hbase
      · exact eventsExtend_step om _ (fun db => ⟨[], by simp⟩) hbase
  · exact hbase

theorem foldl_processDecision_extend (om : Nat → Bool) (now : String) :
    ∀ (ds : List Decision) (st : CommitDB × Nat),
      eventsExtend st.1 (ds.foldl (processDecision om now) st).1 := by
  intro ds
  induction ds with
  | nil => exact fun st => eventsExtend_refl st.1
  | cons d ds ih =>
    intro st
    exact eventsExtend_trans (processDecision_extend om now st d) (ih _)

theorem ifAttempt_extend {db0 : CommitDB} (om : Nat → Bool) {c : Prop} [Decidable c]
    {st : CommitDB × Nat} {f : CommitDB → CommitDB}
    (hf : ∀ db, eventsExtend db (f db)) (h : eventsExtend db0 st.1) :
    eventsExtend db0 (if c then attemptWrite om st f else st).1 := by
  split
  · exact eventsExtend_trans h (attemptWrite_extend om st f hf)
  · exact h

theorem commitPOST_extend (ds : List Decision) (db0 : CommitDB) (om : Nat → Bool)
    (now : String) : eventsExtend db0 (commitPOST ds db0 om now).1 := by
  unfold commitPOST
  exact ifAttempt_extend om (fun db => ⟨[chunkTagEvent ds], by simp⟩)
    (ifAttempt_extend om (fun db => ⟨[taxonomyAppliedEvent ds], by simp⟩)
      (foldl_processDecision_extend om now ds (db0, 0)))

theorem processDecision_idx (om : Nat → Bool) (now : String) (st : CommitDB × Nat)
    (d : Decision) :
    (processDecision om now st d).2 = st.2 + (if d.status == "approved" then 3 else 2) := by
  unfold processDecision
  rw [attemptWrite_idx]
  by_cases h : (d.status == "approved") = true
  · simp only [h, if_true]
    by_cases ha : (d.action == some "alias" && optTruthy d.targetCoreId) = true
    · simp [ha, attemptWrite_idx]
    · by_cases hs : (d.action == some "subtopic" && optTruthy d.targetCoreId) = true
      · simp [ha, hs, attemptWrite_idx]
      · simp [ha, hs, attemptWrite_idx]
  · simp only [Bool.not_eq_true] at h
    simp [h, attemptWrite_idx]

theorem foldl_processDecision_idx (om : Nat → Bool) (now : String) :
    ∀ (ds : List Decision) (st : CommitDB × Nat),
      (ds.foldl (processDecision om now) st).2 =
        st.2 + (ds.map (fun d => if d.status == "approved" then 3 else 2)).sum := by
  intro ds
  induction ds with
  | nil => simp
  | cons d ds ih =>
    intro st
    rw [List.foldl_cons, ih, processDecision_idx, List.map_cons, List.sum_cons]
    omega

theorem commitPOST_idx (ds : List Decision) (db0 : CommitDB) (om : Nat → Bool) (now : String) :
    (commitPOST ds db0 om now).2 = writeAttemptCount ds db0.auto_chunk_tag := by
  unfold commitPOST writeAttemptCount
  by_cases hlen : 0 < ds.length
  · by_cases hauto : db0.auto_chunk_tag = true
    · simp [hlen, hauto, attemptWrite_idx, foldl_processDecision_idx]
    · simp only [Bool.not_eq_true] at hauto
      simp [hlen, hauto, attemptWrite_idx, foldl_processDecision_idx]
  · have h0 : ds = [] := List.length_eq_zero.mp (by omega)
    subst h0
    simp [foldl_processDecision_idx]

theorem upsertRelationOp_relations_eq (db1 db2 : CommitDB) (r : RelationRow)
    (h : db1.topic_relations = db2.topic_relations) :
    (upsertRelationOp db1 r).topic_relations = (upsertRelationOp db2 r).topic_relations := by
  unfold upsertRelationOp
  rw [h]
  split <;> simp

theorem upsertTopicOp_topics_eq (db1 db2 : CommitDB) (r : TopicRow)
    (h : db1.topics = db2.topics) :
    (upsertTopicOp db1 r).topics = (upsertTopicOp db2 r).topics := by
  unfold upsertTopicOp
  rw [h]
  split <;> simp

theorem processDecision_allOk_events (now : String) (st : CommitDB × Nat) (d : Decision) :
    (processDecision (fun _ => true) now st d).1.events = st.1.events ++ [decisionEvent d] := by
  unfold processDecision
  by_cases h : (d.status == "approved") = true
  · simp only [h, if_true, attemptWrite_allOk]
    by_cases ha : (d.action == some "alias" && optTruthy d.targetCoreId) = true
    · simp [ha, attemptWrite_allOk]
    · by_cases hs : (d.action == some "subtopic" && optTruthy d.targetCoreId) = true
      · simp [ha, hs, attemptWrite_allOk]
      · simp [ha, hs, attemptWrite_allOk]
  · simp only [Bool.not_eq_true] at h
    simp [h, attemptWrite_allOk]

theorem foldl_allOk_events (now : String) :
    ∀ (ds : List Decision) (st : CommitDB × Nat),
      (ds.foldl (processDecision (fun _ => true) now) st).1.events =
        st.1.events ++ ds.map decisionEvent := by
  intro ds
  induction ds with
  | nil => simp
  | cons d ds ih =>
    intro st
    rw [List.foldl_cons, ih, processDecision_allOk_events]
    simp

theorem commitPOST_allOk_events (ds : List Decision) (db0 : CommitDB) (now : String) :
    (commitPOST ds db0 (fun _ => true) now).1.events =
      db0.events ++ ds.map decisionEvent ++
        (if 0 < ds.length then
          taxonomyAppliedEvent ds :: (if db0.auto_chunk_tag then [chunkTagEvent ds] else [])
        else []) := by
  unfold commitPOST
  by_cases hlen : 0 < ds.length
  · by_cases hauto : db0.auto_chunk_tag = true
    · simp [hlen, hauto, attemptWrite_allOk, foldl_allOk_events]
    · simp only [Bool.not_eq_true] at hauto
      simp [hlen, hauto, attemptWrite_allOk, foldl_allOk_events]
  · have h0 : ds = [] := List.length_eq_zero.mp (by omega)
    subst h0
    simp

/-! ## Claim theorems -/

/-- C4: CSV batch-ingestion date parsing maps "2024-01-15T10:30:00Z" to
that exact instant (epoch ms 1705314600000), "2024-01-15" to midnight
UTC of that day (1705276800000), "01/15/2024" to January 15 2024
midnight UTC, and never parses a value containing "<" or longer than 50
characters, falling back to the current time (with a warning). -/
theorem C4_csv_date_formats (nowMs : Int) :
    parseStartedAt "2024-01-15T10:30:00Z" nowMs = (1705314600000, false) ∧
    parseStartedAt "2024-01-15" nowMs = (1705276800000, false) ∧
    parseStartedAt "01/15/2024" nowMs = (1705276800000, false) ∧
    (∀ v : String, jsIncludes v "<" = true → parseStartedAt v nowMs = (nowMs, true)) ∧
    (∀ v : String, 50 < strLen v → parseStartedAt v nowMs = (nowMs, true)) := by
  refine ⟨rfl, rfl, rfl, ?_, ?_⟩
  · intro v h
    simp [parseStartedAt, h]
  · intro v h
    simp [parseStartedAt, h]

/-- Witness for C4 at concrete inputs: a value containing "<" and a
52-character value both fall back to the supplied current time. -/
theorem C4_csv_date_formats_witness :
    parseStartedAt "<b>log</b>" 77 = (77, true) ∧
    parseStartedAt "0123456789012345678901234567890123456789012345678901" 77 = (77, true) := by
  exact ⟨(C4_csv_date_formats 77).2.2.2.1 "<b>log</b>" (by decide),
    (C4_csv_date_formats 77).2.2.2.2 "0123456789012345678901234567890123456789012345678901" (by decide)⟩

/-- C5: the claim (and the source comment labelling the fourth branch
"UK format (15/01/2024)") say a D/M/Y value is parsed by the UK branch
to 15 January 2024; the code instead routes "15/01/2024" into the US
branch (whose regex is identical, so the UK branch is unreachable),
constructs the invalid date string "2024-15-01T00:00:00Z", and falls
back to the current time with a warning. -/
theorem C5_uk_date_falls_back (nowMs : Int) :
    parseStartedAt "15/01/2024" nowMs = (nowMs, true) := rfl

/-- C9: the anon and service fields of the environment probe are exactly the
presence booleans of the two secret keys, and the response is invariant
under changing the secret values as long as their presence (and the
public url) is unchanged: no secret value flows into the response. -/
theorem C9_env_probe_secret_free :
    (∀ e : EnvState, (envGET e).anon = optTruthy e.publishableKey ∧
      (envGET e).service = optTruthy e.secretKey) ∧
    (∀ e1 e2 : EnvState, e1.supabaseUrl = e2.supabaseUrl →
      optTruthy e1.publishableKey = optTruthy e2.publishableKey →
      optTruthy e1.secretKey = optTruthy e2.secretKey →
      envGET e1 = envGET e2) := by
  refine ⟨fun e => ⟨rfl, rfl⟩, ?_⟩
  intro e1 e2 h1 h2 h3
  simp [envGET, h1, h2, h3]

/-- Witness for C9: two environments with different configured key
values but the same presence produce identical responses. -/
theorem C9_env_probe_secret_free_witness :
    envGET ⟨some "https://x.supabase.co", some "sb_publishable_aaa", some "sb_secret_aaa"⟩ =
      envGET ⟨some "https://x.supabase.co", some "sb_publishable_bbb", some "sb_secret_bbb"⟩ := by
  exact C9_env_probe_secret_free.2 _ _ rfl (by decide) (by decide)

/-- C10: on the ingestion fallback path every input text yields at least
one prepared chunk row and at least one prepared candidate row; when
the sentence-window chunking yields nothing the single chunk holds the
first 2000 characters of the raw text, and when no keyword group
matches the single candidate is the pending "General Discussion" one. -/
theorem C10_fallback_nonempty (raw : String) :
    fallbackChunks raw ≠ [] ∧
    basicCandidates raw ≠ [] ∧
    (windowChunks (sentencesOf raw) 0 = [] →
      fallbackChunks raw = [⟨strTake raw 2000, 0, none⟩]) ∧
    (jsIncludes (lowerStr raw) "product" = false →
      jsIncludes (lowerStr raw) "development" = false →
      jsIncludes (lowerStr raw) "feature" = false →
      jsIncludes (lowerStr raw) "user" = false →
      jsIncludes (lowerStr raw) "feedback" = false →
      jsIncludes (lowerStr raw) "customer" = false →
      jsIncludes (lowerStr raw) "timeline" = false →
      jsIncludes (lowerStr raw) "priority" = false →
      jsIncludes (lowerStr raw) "plan" = false →
      basicCandidates raw =
        [⟨"General Discussion", strTake raw 100, "Basic topic detection (pipeline failed)", "pending"⟩]) := by
  refine ⟨?_, ?_, ?_, ?_⟩
  · simpa [fallbackChunks] using
      ifEmpty_singleton_ne_nil (windowChunks (sentencesOf raw) 0) ⟨strTake raw 2000, 0, none⟩
  · simp only [basicCandidates]
    apply ifEmpty_singleton_ne_nil
  · intro h
    simp [fallbackChunks, h]
  · intro h1 h2 h3 h4 h5 h6 h7 h8 h9
    simp [basicCandidates, h1, h2, h3, h4, h5, h6, h7, h8, h9]

/-- Witness for C10 at the empty input: one 2000-character-capped chunk
(here empty) and the single generic candidate are prepared. -/
theorem C10_fallback_nonempty_witness :
    fallbackChunks "" = [⟨strTake "" 2000, 0, none⟩] ∧
    basicCandidates "" =
      [⟨"General Discussion", strTake "" 100, "Basic topic detection (pipeline failed)", "pending"⟩] := by
  exact ⟨(C10_fallback_nonempty "").2.2.1 (by decide),
    (C10_fallback_nonempty "").2.2.2 (by decide) (by decide) (by decide) (by decide) (by decide)
      (by decide) (by decide) (by decide) (by decide)⟩

/-- C6 counterexample: the input "feature timeline feedback" contains
"feature" and "timeline" and does not contain "user", yet the fallback
also synthesizes the "User Feedback" candidate (its keyword group is
"user" OR "feedback" OR "customer"), so the candidate set is not
exactly the claimed two labels. -/
theorem C6_keyword_fallback_counterexample :
    jsIncludes (lowerStr "feature timeline feedback") "feature" = true ∧
    jsIncludes (lowerStr "feature timeline feedback") "timeline" = true ∧
    jsIncludes (lowerStr "feature timeline feedback") "user" = false ∧
    (basicCandidates "feature timeline feedback").map (fun c => c.label) =
      ["Product Development", "User Feedback", "Planning & Timeline"] := by
  refine ⟨by decide, by decide, by decide, by decide⟩

/-- C6 (amended): for every input whose lowercasing contains "feature"
and "timeline" but none of "user", "feedback" or "customer", the
synthesized candidates are exactly Product Development and Planning &
Timeline (in particular, User Feedback is absent); the other groups are
one labelled candidate per match, with a single generic candidate when
nothing matches. -/
theorem C6_keyword_fallback (raw : String)
    (hf : jsIncludes (lowerStr raw) "feature" = true)
    (ht : jsIncludes (lowerStr raw) "timeline" = true)
    (hu : jsIncludes (lowerStr raw) "user" = false)
    (hb : jsIncludes (lowerStr raw) "feedback" = false)
    (hc : jsIncludes (lowerStr raw) "customer" = false) :
    (basicCandidates raw).map (fun c => c.label) =
      ["Product Development", "Planning & Timeline"] ∧
    "User Feedback" ∉ (basicCandidates raw).map (fun c => c.label) := by
  have h : (basicCandidates raw).map (fun c => c.label) =
      ["Product Development", "Planning & Timeline"] := by
    simp [basicCandidates, hf, ht, hu, hb, hc]
  refine ⟨h, ?_⟩
  rw [h]
  decide

/-- Witness for C6 at the concrete input "feature timeline". -/
theorem C6_keyword_fallback_witness :
    (basicCandidates "feature timeline").map (fun c => c.label) =
      ["Product Development", "Planning & Timeline"] ∧
    "User Feedback" ∉ (basicCandidates "feature timeline").map (fun c => c.label) := by
  exact C6_keyword_fallback "feature timeline"
    (by decide) (by decide) (by decide) (by decide) (by decide)

/-- C8: taxonomy graph assembly is a read-only, idempotent projection:
the load function leaves the tables untouched, a repeated call over the
unchanged tables returns the identical view list, and every assembled
topic view has alias, child and parent lists that are exactly the in-memory filters
of the alias and relation tables. -/
theorem C8_taxonomy_idempotent (db : TaxDB) :
    (loadTaxonomy db).1 = db ∧
    (loadTaxonomy ((loadTaxonomy db).1)).2 = (loadTaxonomy db).2 ∧
    (∀ v ∈ (loadTaxonomy db).2,
      v.aliases = (db.topic_aliases.filter (fun a => a.topic_id == v.id)).map (fun a => a.aliasText) ∧
      v.children = (db.topic_relations.filter (fun r => r.parent_id == v.id)).map (fun r => r.child_id) ∧
      v.parents = (db.topic_relations.filter (fun r => r.child_id == v.id)).map (fun r => r.parent_id)) := by
  refine ⟨rfl, rfl, ?_⟩
  intro v hv
  simp only [loadTaxonomy, List.mem_map] at hv
  obtain ⟨t, ht, rfl⟩ := hv
  exact ⟨rfl, rfl, rfl⟩

/-- Witness for C8: a concrete database with one relation and one alias;
the assembled view of topic "a" has the filtered alias list. -/
theorem C8_taxonomy_idempotent_witness :
    (⟨"a", "Alpha", none, ["Alef"], ["b"], []⟩ : TopicView).aliases =
      (([⟨"a", "Alef"⟩] : List TaxAliasRow).filter
        (fun a => a.topic_id == (⟨"a", "Alpha", none, ["Alef"], ["b"], []⟩ : TopicView).id)).map
        (fun a => a.aliasText) := by
  exact ((C8_taxonomy_idempotent ⟨[⟨"a", "Alpha", none⟩, ⟨"b", "Beta", none⟩],
    [⟨"a", "Alef"⟩], [⟨"a", "b"⟩]⟩).2.2
    ⟨"a", "Alpha", none, ["Alef"], ["b"], []⟩ (by decide)).1

/-- A successful plain topic insert appends the row, and no existing row
shares its id or its lowercased label. -/
theorem insertTopicSQL_some_eq {rows rows2 : List TopicRow} {r : TopicRow}
    (h : insertTopicSQL rows r = some rows2) :
    rows2 = rows ++ [r] ∧ ∀ x ∈ rows, x.id ≠ r.id ∧ lowerStr x.label ≠ lowerStr r.label := by
  unfold insertTopicSQL at h
  split at h
  · simp at h
  · rename_i hcond
    injection h with h2
    refine ⟨h2.symm, ?_⟩
    simp only [Bool.or_eq_true, List.any_eq_true, beq_iff_eq, not_or, not_exists] at hcond
    push_neg at hcond
    intro x hx
    exact ⟨hcond.1 x hx, hcond.2 x hx⟩

/-- A successful plain topic insert preserves the uniqueness invariant. -/
theorem insertTopicSQL_preserves {rows rows2 : List TopicRow} {r : TopicRow}
    (hu : topicsUnique rows) (h : insertTopicSQL rows r = some rows2) :
    topicsUnique rows2 := by
  obtain ⟨heq, hall⟩ := insertTopicSQL_some_eq h
  subst heq
  unfold topicsUnique at hu ⊢
  rw [List.pairwise_append]
  refine ⟨hu, List.pairwise_singleton _ _, ?_⟩
  intro x hx b hb
  simp only [List.mem_singleton] at hb
  subst hb
  exact hall x hx

/-- A successful topic upsert preserves the uniqueness invariant. -/
theorem upsertTopicSQL_preserves {rows rows2 : List TopicRow} {r : TopicRow}
    (hu : topicsUnique rows) (h : upsertTopicSQL rows r = some rows2) :
    topicsUnique rows2 := by
  unfold upsertTopicSQL at h
  split at h
  · split at h
    · rename_i hguard
      injection h with h2
      subst h2
      exact hguard
    · simp at h
  · exact insertTopicSQL_preserves hu h

/-- A successful alias insert appends the row, and no existing row
shares its exact alias text or its (topic, lowercased alias) pair. -/
theorem insertAliasSQL_some_eq {rows rows2 : List AliasRow} {a : AliasRow}
    (h : insertAliasSQL rows a = some rows2) :
    rows2 = rows ++ [a] ∧ ∀ x ∈ rows, x.aliasText ≠ a.aliasText ∧
      ¬(x.topic_id = a.topic_id ∧ lowerStr x.aliasText = lowerStr a.aliasText) := by
  unfold insertAliasSQL at h
  split at h
  · simp at h
  · rename_i hcond
    injection h with h2
    refine ⟨h2.symm, ?_⟩
    simp only [Bool.or_eq_true, List.any_eq_true, beq_iff_eq, Bool.and_eq_true,
      not_or, not_exists] at hcond
    push_neg at hcond
    intro x hx
    exact ⟨hcond.1 x hx, fun hpair => hcond.2 x hx hpair.1 hpair.2⟩

/-- A successful alias insert preserves the uniqueness invariant. -/
theorem insertAliasSQL_preserves {rows rows2 : List AliasRow} {a : AliasRow}
    (hu : aliasesUnique rows) (h : insertAliasSQL rows a = some rows2) :
    aliasesUnique rows2 := by
  obtain ⟨heq, hall⟩ := insertAliasSQL_some_eq h
  subst heq
  unfold aliasesUnique at hu ⊢
  rw [List.pairwise_append]
  refine ⟨hu, List.pairwise_singleton _ _, ?_⟩
  intro x hx b hb
  simp only [List.mem_singleton] at hb
  subst hb
  exact hall x hx

/-- C7: topic labels are unique ignoring case and aliases are unique
(exactly, and ignoring case per topic): an insert whose lowercased
label (or per-topic lowercased alias) collides with an existing row is
rejected by the unique index, and every insert or upsert that the
database accepts preserves the case-insensitive uniqueness invariant. -/
theorem C7_case_insensitive_uniqueness :
    (∀ (rows : List TopicRow) (x r : TopicRow), x ∈ rows →
      lowerStr x.label = lowerStr r.label → insertTopicSQL rows r = none) ∧
    (∀ (rows rows2 : List TopicRow) (r : TopicRow), topicsUnique rows →
      insertTopicSQL rows r = some rows2 → topicsUnique rows2) ∧
    (∀ (rows rows2 : List TopicRow) (r : TopicRow), topicsUnique rows →
      upsertTopicSQL rows r = some rows2 → topicsUnique rows2) ∧
    (∀ (rows : List AliasRow) (x a : AliasRow), x ∈ rows → x.topic_id = a.topic_id →
      lowerStr x.aliasText = lowerStr a.aliasText → insertAliasSQL rows a = none) ∧
    (∀ (rows rows2 : List AliasRow) (a : AliasRow), aliasesUnique rows →
      insertAliasSQL rows a = some rows2 → aliasesUnique rows2) := by
  refine ⟨?_, fun _ _ _ => insertTopicSQL_preserves, fun _ _ _ => upsertTopicSQL_preserves,
    ?_, fun _ _ _ => insertAliasSQL_preserves⟩
  · intro rows x r hx hlab
    have hany : rows.any (fun t => lowerStr t.label == lowerStr r.label) = true :=
      List.any_eq_true.mpr ⟨x, hx, by simp [hlab]⟩
    simp [insertTopicSQL, hany]
  · intro rows x a hx htid hlab
    have hany : rows.any
        (fun t => t.topic_id == a.topic_id && lowerStr t.aliasText == lowerStr a.aliasText) = true :=
      List.any_eq_true.mpr ⟨x, hx, by simp [htid, hlab]⟩
    simp [insertAliasSQL, hany]

/-- Witness for C7: inserting a topic whose label differs from an
existing one only in case, and an alias for the same topic differing
only in case, are both rejected. -/
theorem C7_case_insensitive_uniqueness_witness :
    insertTopicSQL [⟨"t1", "Foo", none⟩] ⟨"t2", "foo", none⟩ = none ∧
    insertAliasSQL [⟨"t1", "Bar"⟩] ⟨"t1", "bar"⟩ = none := by
  exact ⟨C7_case_insensitive_uniqueness.1 [⟨"t1", "Foo", none⟩] ⟨"t1", "Foo", none⟩
      ⟨"t2", "foo", none⟩ (by decide) (by decide),
    C7_case_insensitive_uniqueness.2.2.2.1 [⟨"t1", "Bar"⟩] ⟨"t1", "Bar"⟩ ⟨"t1", "bar"⟩
      (by decide) (by decide) (by decide)⟩

/-- C1 counterexample: a batch of one approved decision in which every
database write fails (the oracle returns false throughout).  The claim
says the request aborts and the caller receives a 500-equivalent; the
route instead discards every returned write error, leaves the database
unchanged, and responds success. -/
theorem C1_write_failure_counterexample :
    commitRoute (some [⟨"c1", "approved", none, none, none⟩])
      ⟨[⟨"c1", "Login Issues", some "login-issues", "pending", none, none⟩], [], [], [], [], false⟩
      (fun _ => false) "2024-01-01T00:00:00Z" =
      (⟨[⟨"c1", "Login Issues", some "login-issues", "pending", none, none⟩], [], [], [], [], false⟩,
        CommitResponse.success) := by decide

/-- C1 (amended): a database write failure during the batch does not
abort the request: the error returned by the client library is
discarded, every remaining write is still attempted exactly once (no
per-decision retry: the number of write attempts is a function of the
batch alone), writes committed before the failing one remain committed
(the audit log of the initial state is an initial segment of the final
one), and the caller receives the success response; only a thrown
exception (modelled by an unparseable body) yields the generic 500. -/
theorem C1_write_failures_ignored (ds : List Decision) (db0 : CommitDB) (om : Nat → Bool)
    (now : String) :
    (commitRoute (some ds) db0 om now).2 = CommitResponse.success ∧
    (∃ t, (commitRoute (some ds) db0 om now).1.events = db0.events ++ t) ∧
    (commitPOST ds db0 om now).2 = writeAttemptCount ds db0.auto_chunk_tag ∧
    commitRoute none db0 om now = (db0, CommitResponse.failure500) := by
  exact ⟨rfl, commitPOST_extend ds db0 om now, commitPOST_idx ds db0 om now, rfl⟩

/-- C2 counterexample: with the auto-chunk-tag flag enabled, a batch of
one decision (all writes succeeding) inserts three audit events, not
N + 1 = 2: the chunk_tag_requested event is written in addition. -/
theorem C2_audit_event_count_counterexample :
    ((commitPOST [⟨"c1", "rejected", none, none, some "s1"⟩]
        ⟨[], [], [], [], [], true⟩ (fun _ => true) "2024-01-01T00:00:00Z").1.events.length = 3) ∧
    ¬((commitPOST [⟨"c1", "rejected", none, none, some "s1"⟩]
        ⟨[], [], [], [], [], true⟩ (fun _ => true) "2024-01-01T00:00:00Z").1.events.length =
      [(⟨"c1", "rejected", none, none, some "s1"⟩ : Decision)].length + 1) := by
  exact ⟨by decide, by decide⟩

/-- C2 (amended): when every write succeeds, the endpoint appends one
candidate_status_changed event per decision followed by one
taxonomy_applied event carrying the batch size for a non-empty batch
(plus one chunk_tag_requested event when the auto-chunk-tag flag is
set), and appends nothing for an empty batch: N + 1 events for N > 0
with the flag clear, N + 2 with the flag set, 0 for N = 0. -/
theorem C2_audit_event_count (ds : List Decision) (db0 : CommitDB) (now : String) :
    (commitPOST ds db0 (fun _ => true) now).1.events =
      db0.events ++ ds.map decisionEvent ++
        (if 0 < ds.length then
          taxonomyAppliedEvent ds :: (if db0.auto_chunk_tag then [chunkTagEvent ds] else [])
        else []) ∧
    (ds = [] → (commitPOST ds db0 (fun _ => true) now).1.events = db0.events) ∧
    (ds ≠ [] → db0.auto_chunk_tag = false →
      (commitPOST ds db0 (fun _ => true) now).1.events.length =
        db0.events.length + ds.length + 1) ∧
    (ds ≠ [] → db0.auto_chunk_tag = true →
      (commitPOST ds db0 (fun _ => true) now).1.events.length =
        db0.events.length + ds.length + 2) := by
  refine ⟨commitPOST_allOk_events ds db0 now, ?_, ?_, ?_⟩
  · intro h
    subst h
    simpa using commitPOST_allOk_events [] db0 now
  · intro hne hauto
    have hlen : 0 < ds.length := List.length_pos.mpr hne
    rw [commitPOST_allOk_events]
    simp [hlen, hauto]
    omega
  · intro hne hauto
    have hlen : 0 < ds.length := List.length_pos.mpr hne
    rw [commitPOST_allOk_events]
    simp [hlen, hauto]
    omega

/-- Witness for C2: a singleton batch with the flag clear yields exactly
two appended events. -/
theorem C2_audit_event_count_witness :
    (commitPOST [⟨"c2", "approved", none, none, some "s"⟩]
      ⟨[], [], [], [], [], false⟩ (fun _ => true) "t").1.events.length = 2 := by
  have h := (C2_audit_event_count [⟨"c2", "approved", none, none, some "s"⟩]
    ⟨[], [], [], [], [], false⟩ "t").2.2.1 (by decide) rfl
  simpa using h

/-- C3 counterexample: an approved decision with action subtopic but no
target topic id.  The claim says a parent/child relation row is
upserted; the code requires a target for the subtopic branch too, so it
instead creates a new canonical topic row and writes no relation. -/
theorem C3_approval_writes_counterexample :
    ((processDecision (fun _ => true) "t"
      (⟨[⟨"c1", "Billing", some "billing", "pending", none, none⟩], [], [], [], [], false⟩, 0)
      ⟨"c1", "approved", some "subtopic", none, none⟩).1.topic_relations = []) ∧
    ((processDecision (fun _ => true) "t"
      (⟨[⟨"c1", "Billing", some "billing", "pending", none, none⟩], [], [], [], [], false⟩, 0)
      ⟨"c1", "approved", some "subtopic", none, none⟩).1.topics =
      [⟨"billing", "Billing", some "ui"⟩]) := by
  exact ⟨by decide, by decide⟩

/-- C3 (amended): for an approved decision, an alias action with a
(truthy) target upserts an alias row mapping the candidate label to
the target topic and touches no relation or topic row; a subtopic
action with a (truthy) target upserts the parent/child relation from
the target to the candidate suggested topic id and touches no alias
or topic row; otherwise a new canonical topic row with the candidate
suggested id and label is upserted.  Rejected or pending decisions
write no topic, alias or relation rows. -/
theorem C3_approval_writes (st : CommitDB × Nat) (d : Decision) (now : String) :
    (d.status = "approved" →
      ((d.action = some "alias" → optTruthy d.targetCoreId = true →
        (processDecision (fun _ => true) now st d).1.topic_aliases =
          st.1.topic_aliases ++ [aliasRowFor d (findCand (updateCandidateOp d now st.1) d.id)] ∧
        (processDecision (fun _ => true) now st d).1.topic_relations = st.1.topic_relations ∧
        (processDecision (fun _ => true) now st d).1.topics = st.1.topics) ∧
       (d.action = some "subtopic" → optTruthy d.targetCoreId = true →
        (processDecision (fun _ => true) now st d).1.topic_relations =
          (upsertRelationOp st.1
            (relationRowFor d (findCand (updateCandidateOp d now st.1) d.id))).topic_relations ∧
        (processDecision (fun _ => true) now st d).1.topic_aliases = st.1.topic_aliases ∧
        (processDecision (fun _ => true) now st d).1.topics = st.1.topics) ∧
       (¬(d.action = some "alias" ∧ optTruthy d.targetCoreId = true) →
        ¬(d.action = some "subtopic" ∧ optTruthy d.targetCoreId = true) →
        (processDecision (fun _ => true) now st d).1.topics =
          (upsertTopicOp st.1
            (topicRowFor (findCand (updateCandidateOp d now st.1) d.id))).topics ∧
        (processDecision (fun _ => true) now st d).1.topic_aliases = st.1.topic_aliases ∧
        (processDecision (fun _ => true) now st d).1.topic_relations = st.1.topic_relations))) ∧
    ((d.status = "rejected" ∨ d.status = "pending") →
      (processDecision (fun _ => true) now st d).1.topic_aliases = st.1.topic_aliases ∧
      (processDecision (fun _ => true) now st d).1.topic_relations = st.1.topic_relations ∧
      (processDecision (fun _ => true) now st d).1.topics = st.1.topics) := by
  constructor
  · intro h
    refine ⟨?_, ?_, ?_⟩
    · intro ha ht
      simp [processDecision, attemptWrite_allOk, h, ha, ht]
    · intro hs ht
      have hcond : (d.action == some "alias" && optTruthy d.targetCoreId) = false := by
        simp +decide [hs]
      simp [processDecision, attemptWrite_allOk, h, hs, ht, hcond]
      exact upsertRelationOp_relations_eq _ _ _ rfl
    · intro hna hns
      have ha : (d.action == some "alias" && optTruthy d.targetCoreId) = false := by
        rw [Bool.and_eq_false_iff]
        by_cases hc : d.action = some "alias"
        · exact Or.inr (by simpa using fun hT => hna ⟨hc, hT⟩)
        · exact Or.inl (by simpa using hc)
      have hs : (d.action == some "subtopic" && optTruthy d.targetCoreId) = false := by
        rw [Bool.and_eq_false_iff]
        by_cases hc : d.action = some "subtopic"
        · exact Or.inr (by simpa using fun hT => hns ⟨hc, hT⟩)
        · exact Or.inl (by simpa using hc)
      simp [processDecision, attemptWrite_allOk, h, ha, hs]
      exact upsertTopicOp_topics_eq _ _ _ rfl
  · intro h
    have hb : (d.status == "approved") = false := by
      rcases h with h | h <;> simp +decide [h]
    simp [processDecision, attemptWrite_allOk, hb]

/-- Witness for C3: a concrete approved alias decision with a target
writes exactly the alias row for the candidate label. -/
theorem C3_approval_writes_witness :
    (processDecision (fun _ => true) "t"
      (⟨[⟨"c1", "Sign in", some "sign-in", "pending", none, none⟩], [], [], [], [], false⟩, 0)
      ⟨"c1", "approved", some "alias", some "auth", none⟩).1.topic_aliases =
      ([] : List AliasRow) ++
        [aliasRowFor ⟨"c1", "approved", some "alias", some "auth", none⟩
          (findCand
            (updateCandidateOp ⟨"c1", "approved", some "alias", some "auth", none⟩ "t"
              ⟨[⟨"c1", "Sign in", some "sign-in", "pending", none, none⟩], [], [], [], [], false⟩)
            "c1")] := by
  exact (((C3_approval_writes
    (⟨[⟨"c1", "Sign in", some "sign-in", "pending", none, none⟩], [], [], [], [], false⟩, 0)
    ⟨"c1", "approved", some "alias", some "auth", none⟩ "t").1 rfl).1 rfl (by decide)).1

end Signals
